import Mathlib

/-!
Verification of the bundle read-through cache (`Bundle.get` / `Bundle.fetch`
in `src/app/routes/games/Bundle.js`) against its specification.

The store is modelled as three relations mirroring the tables
`games__bundle`, `games__bundle_name`, `games__bundle_app`.  Identifiers and
epoch timestamps are `Int` (JS numbers used integrally).  Helper modules
(`Utils`, `Pool`, `Request`, `CustomError`) are not part of the sources; the
few facts needed about them are modelled from the spec and noted at each
definition.
-/

/-- Allowed filter vocabulary: `columnKeys = [name, removed, apps]`
(`Bundle.js` line 35, computed before any deletion). -/
def columnKeys : List String := ["name", "removed", "apps"]

/-- Fuel-driven matcher for the validator regex
`^(((name|removed|apps),?)+)?$` (`Bundle.js` line 46): the string is empty or
a concatenation of vocabulary words, each followed by an optional comma. -/
def filterChain : Nat → List Char → Bool
  | _, [] => true
  | 0, _ => false
  | fuel + 1, cs =>
    columnKeys.any fun t =>
      let td := t.data
      if cs.take td.length = td then
        let r := cs.drop td.length
        filterChain fuel r ||
          (match r with
           | ',' :: r2 => filterChain fuel r2
           | _ => false)
      else false

/-- The validator regex on a whole filters string. -/
def matchesFilterRegex (s : String) : Bool :=
  filterChain (s.length + 1) s.data

/-- Error message of the validator (`Bundle.js` lines 41-48).
`Utils.validateParams` is not under `src/`; modelled from the spec: a
non-matching filters string fails with the allowed-vocabulary message. -/
def filterErrorMessage : String :=
  "Must be a comma-separated list containing the following values: name, removed, apps"

/-- JS `split(',')`: cut at every comma, keeping empty segments. -/
def splitCommasAux : List Char → List Char → List String
  | [], acc => [String.mk acc]
  | c :: rest, acc =>
    if c = ',' then String.mk acc :: splitCommasAux rest []
    else splitCommasAux rest (acc ++ [c])

def splitCommas (s : String) : List String :=
  splitCommasAux s.data []

/-- Which optional fields are included (`Bundle.js` lines 51-63): all when the
filters string is empty, otherwise exactly the comma-separated tokens that
occur in it. -/
structure Filters where
  name : Bool
  removed : Bool
  apps : Bool
deriving DecidableEq, Repr

def filtersOf (s : String) : Filters :=
  if s = "" then ⟨true, true, true⟩
  else
    let ks := splitCommas s
    ⟨ks.contains "name", ks.contains "removed", ks.contains "apps"⟩

/-- A row of the primary table `games__bundle`. -/
structure BundleRow where
  bundle_id : Int
  removed : Bool
  last_update : Int
  queued_for_update : Bool
deriving DecidableEq, Repr

/-- The persistent store: primary table, name table (keyed by bundle id),
app-membership table (keyed by the (bundle id, app id) pair). -/
structure Store where
  bundles : List BundleRow
  names : List (Int × String)
  apps : List (Int × Int)
deriving DecidableEq, Repr

/-- A raw row of the read query (`Bundle.js` lines 66-86): `name` is selected
only when the name filter is on (and then the INNER JOIN supplies it),
`removed` only when the removed filter is on; an unselected column is
`none` (JS `undefined`). -/
structure RawRow where
  bundle_id : Int
  name : Option String
  removed : Option Bool
  last_update : Int
  queued_for_update : Bool
deriving DecidableEq, Repr

/-- The read query: when the name filter is on the primary table is
INNER JOINed with the name table, so bundles without a name row produce no
row at all; otherwise every primary row whose id is requested is returned. -/
def selectRows (st : Store) (ids : List Int) (f : Filters) : List RawRow :=
  if f.name then
    (st.bundles.filter fun b => ids.contains b.bundle_id).flatMap fun b =>
      (st.names.filter fun n => n.1 == b.bundle_id).map fun n =>
        ⟨b.bundle_id, some n.2, if f.removed then some b.removed else none,
          b.last_update, b.queued_for_update⟩
  else
    (st.bundles.filter fun b => ids.contains b.bundle_id).map fun b =>
      ⟨b.bundle_id, none, if f.removed then some b.removed else none,
        b.last_update, b.queued_for_update⟩

/-- App ids of one bundle, as delivered by the GROUP_CONCAT query plus the
`split(',').map(parseInt)` decoding (`Bundle.js` lines 88-100, 116-119); a
bundle with no membership rows has no group, decoded as `[]`. -/
def appsOf (st : Store) (i : Int) : List Int :=
  (st.apps.filter fun p => p.1 == i).map fun p => p.2

/-- `Utils.isSet` applied to the selected name column.  `Utils` is not under
`src/`; modelled from the spec: the name field counts as set unless it is
absent or empty (`"absent/empty"`, spec section 4.3). -/
def isSet : Option String → Bool
  | none => false
  | some s => !(s == "")

/-- The staleness condition of `Bundle.js` lines 125-128, on the selected
columns: `differenceInSeconds > 6 days`, or the name column unset AND the
removed column falsy AND `differenceInSeconds > 1 day`. -/
def staleCond (name : Option String) (removed : Option Bool) (diff : Int) : Bool :=
  diff > 60 * 60 * 24 * 6 ||
    (!(isSet name) && !(removed.getD false) && diff > 60 * 60 * 24)

/-- A projection returned by `get`: optional fields are present exactly when
their filter is on; `last_update` is kept as the raw epoch (the date
formatting of `Utils.formatDate` is presentation only and not under `src/`). -/
structure Projection where
  bundle_id : Int
  name : Option String
  removed : Option Bool
  apps : Option (List Int)
  last_update : Int
  queued_for_update : Bool
deriving DecidableEq, Repr

/-- Builds one projection from a raw row (`Bundle.js` lines 107-132):
the computed `queued_for_update` is the stored flag, or else the staleness
condition. -/
def mkProjection (f : Filters) (st : Store) (now : Int) (row : RawRow) : Projection :=
  { bundle_id := row.bundle_id
    name := if f.name then row.name else none
    removed := if f.removed then row.removed else none
    apps := if f.apps then some (appsOf st row.bundle_id) else none
    last_update := row.last_update
    queued_for_update :=
      if row.queued_for_update then true
      else staleCond row.name row.removed (now - row.last_update) }

/-- One step of the queue write `INSERT ... ON DUPLICATE KEY UPDATE
queued_for_update = VALUES(queued_for_update)` (`Bundle.js` lines 140-147):
an existing row (the primary key admits at most one) only has its
`queued_for_update` set; an unknown id gets a bare new row.  The `removed` /
`last_update` defaults of the bare row come from the schema, which is not
under `src/`; modelled from the spec ("a bare row, identifier only"). -/
def upsertQueue (bs : List BundleRow) (i : Int) : List BundleRow :=
  if bs.any fun b => b.bundle_id == i then
    bs.map fun b => if b.bundle_id == i then { b with queued_for_update := true } else b
  else
    bs ++ [{ bundle_id := i, removed := false, last_update := 0, queued_for_update := true }]

/-- The ids pushed to `to_queue` (`Bundle.js` lines 104-137): first the
returned rows whose stored flag is off and whose staleness condition holds
(in row order), then every requested id with no returned row (`notFound`). -/
def queueIds (st : Store) (ids : List Int) (f : Filters) (now : Int) : List Int :=
  (((selectRows st ids f).filter fun row =>
      !row.queued_for_update && staleCond row.name row.removed (now - row.last_update)).map
      fun row => row.bundle_id)
    ++ ids.filter fun i => !(((selectRows st ids f).map fun row => row.bundle_id).contains i)

/-- `Bundle.get` (`Bundle.js` lines 30-151).  Returns the validation outcome
with the projections, and the store after the queue write (a no-op when
`to_queue` is empty).  On a validation failure the store is returned
untouched (no query runs after `Utils.validateParams` throws). -/
def getBundles (st : Store) (ids : List Int) (filtersStr : String) (now : Int) :
    Except String (List Projection) × Store :=
  if matchesFilterRegex filtersStr then
    let f := filtersOf filtersStr
    let q := queueIds st ids f now
    (.ok ((selectRows st ids f).map (mkProjection f st now)),
     if q.isEmpty then st else { st with bundles := q.foldl upsertQueue st.bundles })
  else
    (.error filterErrorMessage, st)

/-- The scraped page, as consumed by `Bundle.fetch` (`Bundle.js` lines
158-188).  `Request` is not under `src/`; modelled from the spec: `hasHtml`
is the truthiness of `storeResponse.html`, `pageheader` the text of the
`.pageheader` element when present, `urlMatchesBundle` whether the final
resolved URL still matches the per-identifier `/bundle/{id}` pattern, and
`dsAppids` the parsed `data-ds-appid` values in document order. -/
structure StoreResponse where
  hasHtml : Bool
  pageheader : Option String
  urlMatchesBundle : Bool
  dsAppids : List Int
deriving DecidableEq, Repr

/-- Errors of `fetch`: the distinguished service error
`CustomError(COMMON_MESSAGES.steam, 500)` raised when the response has no
html, and a store-level failure of one of the write queries. -/
inductive FetchError
  | steamUnavailable
  | dbFailure
deriving DecidableEq, Repr

/-- The primary upsert `INSERT ... ON DUPLICATE KEY UPDATE <every column>`
(`Bundle.js` lines 193-200): overwrite the row with this id, or append. -/
def upsertPrimary (st : Store) (nb : BundleRow) : Store :=
  if st.bundles.any fun b => b.bundle_id == nb.bundle_id then
    { st with bundles := st.bundles.map fun b => if b.bundle_id == nb.bundle_id then nb else b }
  else
    { st with bundles := st.bundles ++ [nb] }

/-- `INSERT IGNORE INTO games__bundle_name` (`Bundle.js` lines 202-208): the
name table is keyed by bundle id, so the insert is skipped whenever any name
row for this id already exists. -/
def insertNameIgnore (st : Store) (bid : Int) (nm : String) : Store :=
  if st.names.any fun n => n.1 == bid then st
  else { st with names := st.names ++ [(bid, nm)] }

/-- One value of `INSERT IGNORE INTO games__bundle_app` (`Bundle.js` lines
211-219): keyed by the (bundle id, app id) pair, skipped when present. -/
def insertAppIgnore (bid : Int) (l : List (Int × Int)) (a : Int) : List (Int × Int) :=
  if l.any fun p => p == (bid, a) then l else l ++ [(bid, a)]

/-- `removed` (`Bundle.js` lines 169-171): the final resolved URL no longer
matches the `/bundle/{id}` page pattern. -/
def scrapedRemoved (resp : StoreResponse) : Bool :=
  !resp.urlMatchesBundle

/-- `bundleName` (`Bundle.js` lines 172-175): the `.pageheader` text when the
page is structurally OK and not removed, else null. -/
def scrapedName (resp : StoreResponse) : Option String :=
  if resp.pageheader.isSome && !(scrapedRemoved resp) then resp.pageheader else none

/-- JS truthiness of `if (bundleName)` (`Bundle.js` line 201): both null and
the empty string skip the name insert. -/
def scrapedNameTruthy (resp : StoreResponse) : Bool :=
  match scrapedName resp with
  | some nm => !(nm == "")
  | none => false

/-- `apps` (`Bundle.js` lines 182-188): the `data-ds-appid` values when the
page is structurally OK and not removed, else empty. -/
def scrapedApps (resp : StoreResponse) : List Int :=
  if resp.pageheader.isSome && !(scrapedRemoved resp) then resp.dsAppids else []

/-- The three write queries of the upsert transaction (`Bundle.js` lines
189-221), applied in order: primary upsert, conditional name insert-ignore,
conditional app insert-ignore. -/
def fetchWrite (resp : StoreResponse) (bundleId : Int) (now : Int) (st : Store) : Store :=
  let st1 := upsertPrimary st ⟨bundleId, scrapedRemoved resp, now, false⟩
  let st2 :=
    if scrapedNameTruthy resp then insertNameIgnore st1 bundleId ((scrapedName resp).getD "")
    else st1
  { st2 with apps := (scrapedApps resp).foldl (insertAppIgnore bundleId) st2.apps }

/-- `Bundle.fetch` (`Bundle.js` lines 157-226), with one fault flag per write
query of the transaction (`f1`: primary upsert, `f2`: name insert, `f3`: app
insert); a flag only fires when its query actually runs.  On any failure the
transaction is rolled back (`Pool.rollback`, modelled from the spec as
making none of the transaction's partial writes observable, so the original
store is returned) and the error re-raised. -/
def fetchBundle (resp : StoreResponse) (bundleId : Int) (now : Int) (st : Store)
    (f1 f2 f3 : Bool) : Except FetchError Unit × Store :=
  if !resp.hasHtml then (.error .steamUnavailable, st)
  else if f1 then (.error .dbFailure, st)
  else if scrapedNameTruthy resp && f2 then (.error .dbFailure, st)
  else if !(scrapedApps resp).isEmpty && f3 then (.error .dbFailure, st)
  else (.ok (), fetchWrite resp bundleId now st)

/-- Two consecutive fault-free runs of `fetch` for the same id against the
same upstream page, at times `t1` then `t2`. -/
def fetchTwice (resp : StoreResponse) (bundleId t1 t2 : Int) (st : Store) :
    (Except FetchError Unit × Store) × (Except FetchError Unit × Store) :=
  let r1 := fetchBundle resp bundleId t1 st false false false
  (r1, fetchBundle resp bundleId t2 r1.2 false false false)

/-! ### Helper lemmas -/

theorem contains_int_iff (l : List Int) (x : Int) : l.contains x = true ↔ x ∈ l :=
  List.elem_iff

theorem getBundles_fst_of_valid (st : Store) (ids : List Int) (fs : String) (now : Int)
    (hval : matchesFilterRegex fs = true) :
    (getBundles st ids fs now).1 =
      .ok ((selectRows st ids (filtersOf fs)).map (mkProjection (filtersOf fs) st now)) := by
  simp [getBundles, hval]

theorem getBundles_snd_of_valid (st : Store) (ids : List Int) (fs : String) (now : Int)
    (hval : matchesFilterRegex fs = true) :
    (getBundles st ids fs now).2 =
      if (queueIds st ids (filtersOf fs) now).isEmpty then st
      else { st with bundles := (queueIds st ids (filtersOf fs) now).foldl upsertQueue st.bundles } := by
  simp [getBundles, hval]

theorem upsertQueue_preserves (bs : List BundleRow) (i : Int) (b : BundleRow) (hb : b ∈ bs) :
    ∃ b' ∈ upsertQueue bs i, b'.bundle_id = b.bundle_id ∧ b'.removed = b.removed ∧
      b'.last_update = b.last_update := by
  unfold upsertQueue
  split
  · refine ⟨if b.bundle_id == i then { b with queued_for_update := true } else b,
      List.mem_map_of_mem _ hb, ?_⟩
    split <;> simp
  · exact ⟨b, List.mem_append_left _ hb, rfl, rfl, rfl⟩

theorem foldl_upsertQueue_preserves (q : List Int) (bs : List BundleRow) (b : BundleRow)
    (hb : b ∈ bs) :
    ∃ b' ∈ q.foldl upsertQueue bs, b'.bundle_id = b.bundle_id ∧ b'.removed = b.removed ∧
      b'.last_update = b.last_update := by
  induction q generalizing bs b with
  | nil => exact ⟨b, hb, rfl, rfl, rfl⟩
  | cons i t ih =>
    obtain ⟨b1, hm1, h1, h2, h3⟩ := upsertQueue_preserves bs i b hb
    obtain ⟨b2, hm2, g1, g2, g3⟩ := ih (upsertQueue bs i) b1 hm1
    exact ⟨b2, hm2, g1.trans h1, g2.trans h2, g3.trans h3⟩

theorem upsertQueue_mem_queued (bs : List BundleRow) (i : Int) :
    ∃ b' ∈ upsertQueue bs i, b'.bundle_id = i ∧ b'.queued_for_update = true := by
  unfold upsertQueue
  split
  case isTrue h =>
    obtain ⟨b, hb, hbi⟩ := List.any_eq_true.mp h
    refine ⟨if b.bundle_id == i then { b with queued_for_update := true } else b,
      List.mem_map_of_mem _ hb, ?_⟩
    rw [if_pos hbi]
    exact ⟨beq_iff_eq.mp hbi, rfl⟩
  case isFalse h =>
    exact ⟨_, List.mem_append_right _ (List.mem_singleton.mpr rfl), rfl, rfl⟩

theorem upsertQueue_keeps_queued (bs : List BundleRow) (j i : Int)
    (h : ∃ b ∈ bs, b.bundle_id = i ∧ b.queued_for_update = true) :
    ∃ b' ∈ upsertQueue bs j, b'.bundle_id = i ∧ b'.queued_for_update = true := by
  obtain ⟨b, hb, h1, h2⟩ := h
  unfold upsertQueue
  split
  · refine ⟨if b.bundle_id == j then { b with queued_for_update := true } else b,
      List.mem_map_of_mem _ hb, ?_⟩
    split <;> simp [h1, h2]
  · exact ⟨b, List.mem_append_left _ hb, h1, h2⟩

theorem foldl_upsertQueue_keeps_queued (q : List Int) (bs : List BundleRow) (i : Int)
    (h : ∃ b ∈ bs, b.bundle_id = i ∧ b.queued_for_update = true) :
    ∃ b' ∈ q.foldl upsertQueue bs, b'.bundle_id = i ∧ b'.queued_for_update = true := by
  induction q generalizing bs with
  | nil => exact h
  | cons j t ih => exact ih (upsertQueue bs j) (upsertQueue_keeps_queued bs j i h)

theorem foldl_upsertQueue_queued (q : List Int) (bs : List BundleRow) (i : Int) (hi : i ∈ q) :
    ∃ b' ∈ q.foldl upsertQueue bs, b'.bundle_id = i ∧ b'.queued_for_update = true := by
  induction q generalizing bs with
  | nil => cases hi
  | cons j t ih =>
    rcases List.mem_cons.mp hi with h | h
    · rw [h]
      exact foldl_upsertQueue_keeps_queued t (upsertQueue bs j) j (upsertQueue_mem_queued bs j)
    · exact ih (upsertQueue bs j) h

theorem insertAppIgnore_mono (bid : Int) (l : List (Int × Int)) (a : Int) (p : Int × Int)
    (hp : p ∈ l) : p ∈ insertAppIgnore bid l a := by
  unfold insertAppIgnore
  split
  · exact hp
  · exact List.mem_append_left _ hp

theorem insertAppIgnore_mem (bid : Int) (l : List (Int × Int)) (a : Int) :
    (bid, a) ∈ insertAppIgnore bid l a := by
  unfold insertAppIgnore
  split
  case isTrue h =>
    obtain ⟨p, hp, hpe⟩ := List.any_eq_true.mp h
    exact (beq_iff_eq.mp hpe) ▸ hp
  case isFalse h =>
    exact List.mem_append_right _ (List.mem_singleton.mpr rfl)

theorem foldl_insertAppIgnore_mono (bid : Int) (xs : List Int) (l : List (Int × Int))
    (p : Int × Int) (hp : p ∈ l) : p ∈ xs.foldl (insertAppIgnore bid) l := by
  induction xs generalizing l with
  | nil => exact hp
  | cons x t ih => exact ih _ (insertAppIgnore_mono bid l x p hp)

theorem foldl_insertAppIgnore_mem (bid : Int) (xs : List Int) (l : List (Int × Int))
    (a : Int) (ha : a ∈ xs) : (bid, a) ∈ xs.foldl (insertAppIgnore bid) l := by
  induction xs generalizing l with
  | nil => cases ha
  | cons x t ih =>
    rcases List.mem_cons.mp ha with h | h
    · rw [h]
      exact foldl_insertAppIgnore_mono bid t _ _ (insertAppIgnore_mem bid l x)
    · exact ih _ h

theorem foldl_insertAppIgnore_id (bid : Int) (xs : List Int) (l : List (Int × Int))
    (h : ∀ a ∈ xs, (bid, a) ∈ l) : xs.foldl (insertAppIgnore bid) l = l := by
  induction xs with
  | nil => rfl
  | cons x t ih =>
    have hx : insertAppIgnore bid l x = l := by
      unfold insertAppIgnore
      rw [if_pos]
      exact List.any_eq_true.mpr ⟨(bid, x), h x (List.mem_cons_self x t), by simp⟩
    rw [List.foldl_cons, hx]
    exact ih fun a ha => h a (List.mem_cons_of_mem x ha)

theorem insertNameIgnore_any (st : Store) (bid : Int) (nm : String) :
    ((insertNameIgnore st bid nm).names.any fun n => n.1 == bid) = true := by
  unfold insertNameIgnore
  split
  case isTrue h => exact h
  case isFalse h =>
    refine List.any_eq_true.mpr ⟨(bid, nm), List.mem_append_right _ (List.mem_singleton.mpr rfl), ?_⟩
    simp

theorem insertNameIgnore_of_any (st : Store) (bid : Int) (nm : String)
    (h : (st.names.any fun n => n.1 == bid) = true) : insertNameIgnore st bid nm = st := by
  unfold insertNameIgnore
  rw [if_pos h]

theorem upsertPrimary_names (st : Store) (nb : BundleRow) :
    (upsertPrimary st nb).names = st.names := by
  unfold upsertPrimary
  split <;> rfl

theorem upsertPrimary_apps (st : Store) (nb : BundleRow) :
    (upsertPrimary st nb).apps = st.apps := by
  unfold upsertPrimary
  split <;> rfl

theorem insertNameIgnore_bundles (st : Store) (bid : Int) (nm : String) :
    (insertNameIgnore st bid nm).bundles = st.bundles := by
  unfold insertNameIgnore
  split <;> rfl

theorem insertNameIgnore_apps (st : Store) (bid : Int) (nm : String) :
    (insertNameIgnore st bid nm).apps = st.apps := by
  unfold insertNameIgnore
  split <;> rfl

theorem find?_map_overwrite (bs : List BundleRow) (nb : BundleRow)
    (h : (bs.any fun b => b.bundle_id == nb.bundle_id) = true) :
    ((bs.map fun b => if b.bundle_id == nb.bundle_id then nb else b).find?
      fun b => b.bundle_id == nb.bundle_id) = some nb := by
  induction bs with
  | nil => cases h
  | cons b t ih =>
    rw [List.map_cons]
    by_cases hb : (b.bundle_id == nb.bundle_id) = true
    · rw [if_pos hb]
      exact List.find?_cons_of_pos _ (by simp)
    · rw [if_neg hb, @List.find?_cons_of_neg BundleRow (fun x => x.bundle_id == nb.bundle_id) b _ hb]
      rw [List.any_cons] at h
      simp only [hb, Bool.false_or] at h
      exact ih h

theorem upsertPrimary_find (st : Store) (nb : BundleRow) :
    ((upsertPrimary st nb).bundles.find? fun b => b.bundle_id == nb.bundle_id) = some nb := by
  unfold upsertPrimary
  split
  case isTrue h => exact find?_map_overwrite st.bundles nb h
  case isFalse h =>
    rw [List.find?_append]
    have h1 : (st.bundles.find? fun b => b.bundle_id == nb.bundle_id) = none := by
      rw [List.find?_eq_none]
      intro b hb hpb
      exact absurd (List.any_eq_true.mpr ⟨b, hb, hpb⟩) h
    rw [h1]
    simp [List.find?]

theorem countP_key_nodup {α : Type} (key : α → Int) (l : List α)
    (h : (l.map key).Nodup) (i : Int) :
    (l.countP fun a => key a == i) = if l.any (fun a => key a == i) then 1 else 0 := by
  induction l with
  | nil => rfl
  | cons b t ih =>
    rw [List.map_cons] at h
    obtain ⟨hnot, ht⟩ := List.nodup_cons.mp h
    rw [List.countP_cons, List.any_cons]
    by_cases hbi : (key b == i) = true
    · have ht0 : (t.countP fun a => key a == i) = 0 := by
        rw [List.countP_eq_zero]
        intro a ha hpa
        have hab : key a = key b := (beq_iff_eq.mp hpa).trans (beq_iff_eq.mp hbi).symm
        exact hnot (hab ▸ List.mem_map_of_mem key ha)
      rw [hbi, ht0]
      simp
    · rw [Bool.not_eq_true] at hbi
      rw [hbi]
      simp [ih ht]

theorem countP_filter_contains (l : List BundleRow) (ids : List Int) (i : Int) (hid : i ∈ ids) :
    ((l.filter fun b => ids.contains b.bundle_id).countP fun b => b.bundle_id == i) =
      l.countP fun b => b.bundle_id == i := by
  rw [List.countP_filter]
  induction l with
  | nil => rfl
  | cons b t ih =>
    rw [List.countP_cons, List.countP_cons, ih]
    congr 1
    by_cases hb : b.bundle_id = i
    · have hc : ids.contains b.bundle_id = true := by
        rw [hb]
        exact (contains_int_iff ids i).mpr hid
      simp [hb, hc, hid]
    · simp [hb]

theorem countP_map_bundleId {β : Type} (g : β → RawRow) (key : β → Int)
    (hkey : ∀ x, (g x).bundle_id = key x) (l : List β) (i : Int) :
    ((l.map g).countP fun r => r.bundle_id == i) = l.countP fun x => key x == i := by
  rw [List.countP_map]
  congr 1
  funext x
  simp [Function.comp, hkey x]

theorem countP_const {β : Type} (l : List β) (c : Bool) :
    (l.countP fun _ => c) = if c then l.length else 0 := by
  cases c
  · simp [List.countP_false]
  · simp [List.countP_true]

theorem countP_selectRows_name (bundles : List BundleRow) (names : List (Int × String))
    (ids : List Int) (fr : Bool)
    (hb : (bundles.map fun b => b.bundle_id).Nodup)
    (hn : (names.map fun n => n.1).Nodup) (i : Int) (hid : i ∈ ids) :
    (((bundles.filter fun b => ids.contains b.bundle_id).flatMap fun b =>
        (names.filter fun n => n.1 == b.bundle_id).map fun n =>
          (⟨b.bundle_id, some n.2, if fr then some b.removed else none,
            b.last_update, b.queued_for_update⟩ : RawRow)).countP fun r => r.bundle_id == i) =
      if (bundles.any fun b => b.bundle_id == i) && (names.any fun n => n.1 == i)
      then 1 else 0 := by
  induction bundles with
  | nil => simp
  | cons b t ih =>
    rw [List.map_cons] at hb
    obtain ⟨hbnot, hbt⟩ := List.nodup_cons.mp hb
    rw [List.any_cons]
    by_cases hc : (ids.contains b.bundle_id) = true
    · rw [@List.filter_cons_of_pos BundleRow (fun x => ids.contains x.bundle_id) b t hc,
        List.flatMap_cons, List.countP_append,
        countP_map_bundleId _ (fun _ => b.bundle_id) (fun _ => rfl) _ i]
      by_cases hbi : (b.bundle_id == i) = true
      · have h0 : (((t.filter fun b' => ids.contains b'.bundle_id).flatMap fun b' =>
            (names.filter fun n => n.1 == b'.bundle_id).map fun n =>
              (⟨b'.bundle_id, some n.2, if fr then some b'.removed else none,
                b'.last_update, b'.queued_for_update⟩ : RawRow)).countP
              fun r => r.bundle_id == i) = 0 := by
          rw [List.countP_eq_zero]
          intro r hr hpr
          obtain ⟨b', hb', hrmem⟩ := List.mem_flatMap.mp hr
          obtain ⟨n, _, hmk⟩ := List.mem_map.mp hrmem
          have hrid : r.bundle_id = b'.bundle_id := by rw [← hmk]
          have hbid : b'.bundle_id = b.bundle_id :=
            (hrid ▸ beq_iff_eq.mp hpr).trans (beq_iff_eq.mp hbi).symm
          exact hbnot (hbid ▸ List.mem_map_of_mem (fun x => x.bundle_id)
            (List.mem_filter.mp hb').1)
        have h1 : ((names.filter fun n => n.1 == b.bundle_id).countP
            fun _ => b.bundle_id == i) = names.countP fun n => n.1 == i := by
          rw [countP_const, if_pos hbi, ← List.countP_eq_length_filter,
            beq_iff_eq.mp hbi]
        rw [h0, h1, hbi, countP_key_nodup (fun n => n.1) names hn i]
        rw [Bool.true_or, Bool.true_and]
        simp
      · rw [Bool.not_eq_true] at hbi
        have h1 : ((names.filter fun n => n.1 == b.bundle_id).countP
            fun _ => b.bundle_id == i) = 0 := by
          rw [countP_const, hbi]
          simp
        rw [h1, hbi, ih hbt]
        rw [Bool.false_or]
        simp
    · rw [@List.filter_cons_of_neg BundleRow (fun x => ids.contains x.bundle_id) b t hc]
      have hbi : (b.bundle_id == i) = false := by
        rw [beq_eq_false_iff_ne]
        intro he
        exact hc (by rw [he]; exact (contains_int_iff ids i).mpr hid)
      rw [hbi, ih hbt]
      rw [Bool.false_or]

theorem countP_selectRows (st : Store) (ids : List Int) (f : Filters)
    (hb : (st.bundles.map fun b => b.bundle_id).Nodup)
    (hn : (st.names.map fun n => n.1).Nodup) (i : Int) (hid : i ∈ ids) :
    ((selectRows st ids f).countP fun r => r.bundle_id == i) =
      if (st.bundles.any fun b => b.bundle_id == i) &&
         (!f.name || (st.names.any fun n => n.1 == i)) then 1 else 0 := by
  unfold selectRows
  by_cases hf : f.name = true
  · rw [if_pos hf, countP_selectRows_name st.bundles st.names ids f.removed hb hn i hid, hf]
    rw [Bool.not_true, Bool.false_or]
  · rw [if_neg hf]
    rw [countP_map_bundleId _ (fun b => b.bundle_id) (fun _ => rfl) _ i,
      countP_filter_contains st.bundles ids i hid,
      countP_key_nodup (fun b => b.bundle_id) st.bundles hb i]
    rw [Bool.not_eq_true] at hf
    rw [hf]
    rw [Bool.not_false, Bool.true_or, Bool.and_true]

example : matchesFilterRegex "" = true := by decide
example : matchesFilterRegex "name,removed" = true := by decide
example : matchesFilterRegex "nameremoved" = true := by decide
example : matchesFilterRegex "name,bogus" = false := by decide
example : matchesFilterRegex "name," = true := by decide
example : matchesFilterRegex "name,,removed" = false := by decide

/-- A fault-free `fetch` against a response with content succeeds and performs
exactly the transaction's writes. -/
theorem fetchBundle_ok (resp : StoreResponse) (bundleId now : Int) (st : Store)
    (h : resp.hasHtml = true) :
    fetchBundle resp bundleId now st false false false =
      (.ok (), fetchWrite resp bundleId now st) := by
  simp [fetchBundle, h]

/-! ### Claim theorems -/

/-- C2 (counterexample): a stored record 2 hours old (`now = 10000`,
`last_update = 2800`), with no name row, `removed = true` and
`queued_for_update = false`, IS marked for requeue by `get` — the claim says
it must not be.  Having no name row, it is dropped by the INNER JOIN with the
name table, lands in `notFound`, and the queue write sets its flag. -/
theorem get_removed_no_name_still_requeued_cex :
    (getBundles ⟨[⟨1, true, 2800, false⟩], [], []⟩ [1] "" 10000).2 =
      ⟨[⟨1, true, 2800, true⟩], [], []⟩ :=
  rfl

/-- C2 (amended): a stored record whose `last_update` is 2 hours old, with no
name row, `queued_for_update = false`, is marked for requeue both with
`removed = false` and with `removed = true`: lacking a name row it is
excluded by the name join and queued unconditionally via the not-found path. -/
theorem get_no_name_row_requeues_both_variants :
    (getBundles ⟨[⟨1, false, 2800, false⟩], [], []⟩ [1] "" 10000).2 =
      ⟨[⟨1, false, 2800, true⟩], [], []⟩ ∧
    (getBundles ⟨[⟨1, true, 2800, false⟩], [], []⟩ [1] "" 10000).2 =
      ⟨[⟨1, true, 2800, true⟩], [], []⟩ :=
  ⟨rfl, rfl⟩

/-- C3 (counterexample): identifier 1 is known to the store (it has a
primary-table row) yet `get` with default filters returns no projection for
it: the INNER JOIN with the name table drops it, and it is queued as
not-found. -/
theorem get_known_without_name_row_omitted_cex :
    (getBundles ⟨[⟨1, false, 0, false⟩], [], []⟩ [1] "" 100).1 = .ok [] ∧
    (getBundles ⟨[⟨1, false, 0, false⟩], [], []⟩ [1] "" 100).2 =
      ⟨[⟨1, false, 0, true⟩], [], []⟩ :=
  ⟨rfl, rfl⟩

/-- C6: `fetch(42)` against a page redirected away from `/bundle/42` stores
the primary row `{id 42, removed true, queued_for_update false}` and inserts
no name and no app rows — but a pre-existing stale app row `(42, 7)` is NOT
removed (the transaction only ever inserts), contradicting the claim that no
app-membership rows for 42 remain. -/
theorem fetch_redirected_keeps_stale_app_rows :
    fetchBundle ⟨true, some "Some Bundle", false, [7, 8]⟩ 42 1000 ⟨[], [], [(42, 7)]⟩
      false false false =
      (.ok (), ⟨[⟨42, true, 1000, false⟩], [], [(42, 7)]⟩) :=
  rfl

/-- C7 (counterexample): the filters string `"nameremoved"` consists of a
single comma-separated token that is outside the vocabulary, yet it matches
the validator regex `^(((name|removed|apps),?)+)?$` (the comma is optional),
so `get` passes validation and runs its queries instead of failing. -/
theorem filters_concatenated_tokens_accepted_cex :
    splitCommas "nameremoved" = ["nameremoved"] ∧
    columnKeys.contains "nameremoved" = false ∧
    matchesFilterRegex "nameremoved" = true ∧
    (getBundles ⟨[], [], []⟩ [] "nameremoved" 0).1 = .ok [] ∧
    (getBundles ⟨[], [], []⟩ [] "nameremoved" 0).2 = ⟨[], [], []⟩ := by
  refine ⟨by decide, by decide, by decide, rfl, rfl⟩

/-- C7 (amended): a filters string that fails the validator regex — e.g. one
with a comma-separated token that is not a concatenation of vocabulary words,
such as `"name,bogus"` — makes `get` fail with the allowed-vocabulary message
and leaves the store untouched, before any query runs. -/
theorem get_invalid_filters_error_no_write (st : Store) (ids : List Int) (s : String)
    (now : Int) (h : matchesFilterRegex s = false) :
    getBundles st ids s now = (.error filterErrorMessage, st) := by
  simp [getBundles, h]

/-- C7 (witness): the spec's own example `"name,bogus"` fails validation with
the vocabulary message and no store write. -/
theorem get_invalid_filters_error_no_write_applied :
    getBundles ⟨[⟨1, false, 0, false⟩], [], []⟩ [1] "name,bogus" 7 =
      (.error filterErrorMessage, ⟨[⟨1, false, 0, false⟩], [], []⟩) :=
  get_invalid_filters_error_no_write ⟨[⟨1, false, 0, false⟩], [], []⟩ [1] "name,bogus" 7
    (by decide)

/-- C9: `get` never touches the name or app tables, and every pre-existing
primary row keeps its `bundle_id`, `removed` and `last_update` — the queue
write can only change `queued_for_update`. -/
theorem get_preserves_existing_rows_frame (st : Store) (ids : List Int) (fs : String)
    (now : Int) :
    ((getBundles st ids fs now).2).names = st.names ∧
    ((getBundles st ids fs now).2).apps = st.apps ∧
    ∀ b ∈ st.bundles, ∃ b' ∈ ((getBundles st ids fs now).2).bundles,
      b'.bundle_id = b.bundle_id ∧ b'.removed = b.removed ∧
      b'.last_update = b.last_update := by
  by_cases hval : matchesFilterRegex fs = true
  · rw [getBundles_snd_of_valid st ids fs now hval]
    by_cases hq : (queueIds st ids (filtersOf fs) now).isEmpty = true
    · rw [if_pos hq]
      exact ⟨rfl, rfl, fun b hb => ⟨b, hb, rfl, rfl, rfl⟩⟩
    · rw [if_neg hq]
      exact ⟨rfl, rfl, fun b hb => foldl_upsertQueue_preserves _ st.bundles b hb⟩
  · have hf : (getBundles st ids fs now).2 = st := by
      rw [Bool.not_eq_true] at hval
      simp [getBundles, hval]
    rw [hf]
    exact ⟨rfl, rfl, fun b hb => ⟨b, hb, rfl, rfl, rfl⟩⟩

/-- C9 (witness): applied to a store with one row, requested stale so the
queue write runs: the row keeps id, removed and last_update. -/
theorem get_preserves_existing_rows_frame_applied :
    ∃ b' ∈ ((getBundles ⟨[⟨1, true, 7, false⟩], [], []⟩ [1] "" 900000).2).bundles,
      b'.bundle_id = 1 ∧ b'.removed = true ∧ b'.last_update = 7 :=
  (get_preserves_existing_rows_frame ⟨[⟨1, true, 7, false⟩], [], []⟩ [1] "" 900000).2.2
    ⟨1, true, 7, false⟩ (List.mem_singleton.mpr rfl)

/-- C8: `fetch` is error-atomic: a response without content raises the
distinguished service error with no store access, and any failing execution
(whatever write step faults) leaves the store unchanged — the transaction is
rolled back, no partial write is observable. -/
theorem fetch_error_leaves_store_unchanged (resp : StoreResponse) (bundleId now : Int)
    (st : Store) (f1 f2 f3 : Bool) :
    (resp.hasHtml = false →
      fetchBundle resp bundleId now st f1 f2 f3 = (.error .steamUnavailable, st)) ∧
    ∀ e, (fetchBundle resp bundleId now st f1 f2 f3).1 = .error e →
      (fetchBundle resp bundleId now st f1 f2 f3).2 = st := by
  constructor
  · intro h
    simp [fetchBundle, h]
  · intro e
    unfold fetchBundle
    split
    · intro _
      rfl
    · split
      · intro _
        rfl
      · split
        · intro _
          rfl
        · split
          · intro _
            rfl
          · intro hcontra
            simp at hcontra

/-- C8 (witness): a response with no usable content fails with the
distinguished service error and the store is unchanged. -/
theorem fetch_error_leaves_store_unchanged_applied :
    fetchBundle ⟨false, none, true, []⟩ 9 50 ⟨[⟨9, false, 1, true⟩], [], []⟩
      false false false = (.error .steamUnavailable, ⟨[⟨9, false, 1, true⟩], [], []⟩) ∧
    (fetchBundle ⟨false, none, true, []⟩ 9 50 ⟨[⟨9, false, 1, true⟩], [], []⟩
      false false false).2 = ⟨[⟨9, false, 1, true⟩], [], []⟩ :=
  ⟨(fetch_error_leaves_store_unchanged ⟨false, none, true, []⟩ 9 50
      ⟨[⟨9, false, 1, true⟩], [], []⟩ false false false).1 rfl,
   (fetch_error_leaves_store_unchanged ⟨false, none, true, []⟩ 9 50
      ⟨[⟨9, false, 1, true⟩], [], []⟩ false false false).2 .steamUnavailable rfl⟩

theorem fetchWrite_bundles (resp : StoreResponse) (bundleId now : Int) (st : Store) :
    (fetchWrite resp bundleId now st).bundles =
      (upsertPrimary st ⟨bundleId, scrapedRemoved resp, now, false⟩).bundles := by
  unfold fetchWrite
  dsimp only
  split
  · rw [insertNameIgnore_bundles]
  · rfl

theorem fetchWrite_names_not_truthy (resp : StoreResponse) (bundleId now : Int) (st : Store)
    (h : scrapedNameTruthy resp = false) :
    (fetchWrite resp bundleId now st).names = st.names := by
  unfold fetchWrite
  simp [h, upsertPrimary_names]

theorem fetchWrite_names_truthy (resp : StoreResponse) (bundleId now : Int) (st : Store)
    (h : scrapedNameTruthy resp = true) :
    (fetchWrite resp bundleId now st).names =
      if st.names.any (fun n => n.1 == bundleId) then st.names
      else st.names ++ [(bundleId, (scrapedName resp).getD "")] := by
  unfold fetchWrite insertNameIgnore
  simp only [h, if_true]
  split
  case isTrue h2 =>
    rw [upsertPrimary_names] at h2
    simp [h2, upsertPrimary_names]
  case isFalse h2 =>
    rw [upsertPrimary_names] at h2
    rw [Bool.not_eq_true] at h2
    simp [h2, upsertPrimary_names]

theorem fetchWrite_names_any (resp : StoreResponse) (bundleId now : Int) (st : Store)
    (h : scrapedNameTruthy resp = true) :
    ((fetchWrite resp bundleId now st).names.any fun n => n.1 == bundleId) = true := by
  rw [fetchWrite_names_truthy resp bundleId now st h]
  split
  case isTrue h2 => exact h2
  case isFalse h2 => simp

theorem fetchWrite_names_stable (resp : StoreResponse) (bundleId t1 t2 : Int) (st : Store) :
    (fetchWrite resp bundleId t2 (fetchWrite resp bundleId t1 st)).names =
      (fetchWrite resp bundleId t1 st).names := by
  cases ht : scrapedNameTruthy resp
  · exact fetchWrite_names_not_truthy _ _ _ _ ht
  · rw [fetchWrite_names_truthy _ _ _ _ ht,
      if_pos (fetchWrite_names_any resp bundleId t1 st ht)]

theorem fetchWrite_apps (resp : StoreResponse) (bundleId now : Int) (st : Store) :
    (fetchWrite resp bundleId now st).apps =
      (scrapedApps resp).foldl (insertAppIgnore bundleId) st.apps := by
  unfold fetchWrite
  dsimp only
  split <;> simp [insertNameIgnore_apps, upsertPrimary_apps]

theorem fetchWrite_apps_stable (resp : StoreResponse) (bundleId t1 t2 : Int) (st : Store) :
    (fetchWrite resp bundleId t2 (fetchWrite resp bundleId t1 st)).apps =
      (fetchWrite resp bundleId t1 st).apps := by
  rw [fetchWrite_apps resp bundleId t2 (fetchWrite resp bundleId t1 st)]
  apply foldl_insertAppIgnore_id
  intro a ha
  rw [fetchWrite_apps resp bundleId t1 st]
  exact foldl_insertAppIgnore_mem bundleId _ _ a ha

theorem fetchWrite_find (resp : StoreResponse) (bundleId now : Int) (st : Store) :
    ((fetchWrite resp bundleId now st).bundles.find? fun b => b.bundle_id == bundleId) =
      some ⟨bundleId, scrapedRemoved resp, now, false⟩ := by
  rw [fetchWrite_bundles]
  exact upsertPrimary_find st ⟨bundleId, scrapedRemoved resp, now, false⟩

/-- C5: two consecutive fault-free `fetch` calls for the same identifier
against the same upstream page both succeed and leave the same stored record:
the name table and the app-membership table are identical after the first and
after the second call, the primary row has the same `removed`, has
`queued_for_update = false` both times, and only `last_update` advances from
`t1` to `t2`. -/
theorem fetch_idempotent_second_run (resp : StoreResponse) (bundleId t1 t2 : Int)
    (st : Store) (h : resp.hasHtml = true) :
    (fetchTwice resp bundleId t1 t2 st).1.1 = .ok () ∧
    (fetchTwice resp bundleId t1 t2 st).2.1 = .ok () ∧
    (fetchTwice resp bundleId t1 t2 st).2.2.names =
      (fetchTwice resp bundleId t1 t2 st).1.2.names ∧
    (fetchTwice resp bundleId t1 t2 st).2.2.apps =
      (fetchTwice resp bundleId t1 t2 st).1.2.apps ∧
    ((fetchTwice resp bundleId t1 t2 st).1.2.bundles.find?
      fun b => b.bundle_id == bundleId) = some ⟨bundleId, scrapedRemoved resp, t1, false⟩ ∧
    ((fetchTwice resp bundleId t1 t2 st).2.2.bundles.find?
      fun b => b.bundle_id == bundleId) = some ⟨bundleId, scrapedRemoved resp, t2, false⟩ := by
  unfold fetchTwice
  rw [fetchBundle_ok resp bundleId t1 st h]
  dsimp only
  rw [fetchBundle_ok resp bundleId t2 (fetchWrite resp bundleId t1 st) h]
  dsimp only
  exact ⟨rfl, rfl, fetchWrite_names_stable resp bundleId t1 t2 st,
    fetchWrite_apps_stable resp bundleId t1 t2 st,
    fetchWrite_find resp bundleId t1 st,
    fetchWrite_find resp bundleId t2 (fetchWrite resp bundleId t1 st)⟩

/-- C5 (witness): a concrete page fetched at times 10 and 20: names and apps
agree across the two runs and the primary row only advances `last_update`. -/
theorem fetch_idempotent_second_run_applied :
    (fetchTwice ⟨true, some "N", true, [3]⟩ 5 10 20 ⟨[], [], []⟩).2.2.names =
      (fetchTwice ⟨true, some "N", true, [3]⟩ 5 10 20 ⟨[], [], []⟩).1.2.names ∧
    (fetchTwice ⟨true, some "N", true, [3]⟩ 5 10 20 ⟨[], [], []⟩).2.2.apps =
      (fetchTwice ⟨true, some "N", true, [3]⟩ 5 10 20 ⟨[], [], []⟩).1.2.apps ∧
    ((fetchTwice ⟨true, some "N", true, [3]⟩ 5 10 20 ⟨[], [], []⟩).2.2.bundles.find?
      fun b => b.bundle_id == 5) = some ⟨5, false, 20, false⟩ := by
  have h := fetch_idempotent_second_run ⟨true, some "N", true, [3]⟩ 5 10 20 ⟨[], [], []⟩ rfl
  exact ⟨h.2.2.1, h.2.2.2.1, h.2.2.2.2.2⟩

/-- C1: in `get` with the default (all-inclusive) filters, every returned
projection comes from a primary row joined with a name row; when the stored
`queued_for_update` is true the projection keeps it true (pass-through), and
when it is false the row is marked for requeue (computed flag true and its id
written queued in the store) exactly when its age exceeds 6 days, or its name
is empty AND `removed` is false AND its age exceeds 1 day. -/
theorem get_staleness_requeue_iff (st : Store) (ids : List Int) (now : Int)
    (bs : List Projection) (h : (getBundles st ids "" now).1 = .ok bs)
    (p : Projection) (hp : p ∈ bs) :
    ∃ b ∈ st.bundles, ∃ nm, (b.bundle_id, nm) ∈ st.names ∧ p.bundle_id = b.bundle_id ∧
      (b.queued_for_update = true → p.queued_for_update = true) ∧
      (b.queued_for_update = false →
        ((p.queued_for_update = true ∧
          ∃ b' ∈ ((getBundles st ids "" now).2).bundles,
            b'.bundle_id = b.bundle_id ∧ b'.queued_for_update = true) ↔
         (now - b.last_update > 60 * 60 * 24 * 6 ∨
          (nm = "" ∧ b.removed = false ∧ now - b.last_update > 60 * 60 * 24)))) := by
  have hval : matchesFilterRegex "" = true := by decide
  have hfe : filtersOf "" = ⟨true, true, true⟩ := by decide
  rw [getBundles_fst_of_valid st ids "" now hval, hfe] at h
  injection h with h2
  subst h2
  obtain ⟨row, hrow, hpeq⟩ := List.mem_map.mp hp
  have hrow' : row ∈ (st.bundles.filter fun b => ids.contains b.bundle_id).flatMap fun b =>
      (st.names.filter fun n => n.1 == b.bundle_id).map fun n =>
        (⟨b.bundle_id, some n.2, some b.removed, b.last_update, b.queued_for_update⟩ :
          RawRow) := hrow
  obtain ⟨b, hbf, hrowmem⟩ := List.mem_flatMap.mp hrow'
  obtain ⟨n, hnf, hneq⟩ := List.mem_map.mp hrowmem
  have hb : b ∈ st.bundles := (List.mem_filter.mp hbf).1
  have hn1 : n.1 = b.bundle_id := beq_iff_eq.mp (List.mem_filter.mp hnf).2
  have hnmem : (b.bundle_id, n.2) ∈ st.names := by
    have he : n = (b.bundle_id, n.2) := by rw [← hn1]
    exact he ▸ (List.mem_filter.mp hnf).1
  subst hneq
  subst hpeq
  refine ⟨b, hb, n.2, hnmem, rfl, ?_, ?_⟩
  · intro hq
    simp [mkProjection, hq]
  · intro hq
    have hcond : staleCond (some n.2) (some b.removed) (now - b.last_update) = true ↔
        (now - b.last_update > 60 * 60 * 24 * 6 ∨
         (n.2 = "" ∧ b.removed = false ∧ now - b.last_update > 60 * 60 * 24)) := by
      simp [staleCond, isSet]
      tauto
    constructor
    · rintro ⟨hpq, -⟩
      apply hcond.mp
      simpa [mkProjection, hq] using hpq
    · intro hrhs
      have hsc := hcond.mpr hrhs
      constructor
      · simp [mkProjection, hq, hsc]
      · have hmemq : b.bundle_id ∈ queueIds st ids (filtersOf "") now := by
          rw [hfe]
          unfold queueIds
          apply List.mem_append_left
          apply List.mem_map.mpr
          refine ⟨⟨b.bundle_id, some n.2, some b.removed, b.last_update,
            b.queued_for_update⟩, List.mem_filter.mpr ⟨hrow', ?_⟩, rfl⟩
          simp [hq, hsc]
        rw [getBundles_snd_of_valid st ids "" now hval]
        have hqne : ¬((queueIds st ids (filtersOf "") now).isEmpty = true) := by
          intro hqe
          rw [List.isEmpty_iff] at hqe
          rw [hqe] at hmemq
          cases hmemq
        rw [if_neg hqne]
        exact foldl_upsertQueue_queued _ st.bundles b.bundle_id hmemq

/-- C1 (witness): a stored row 600000 seconds old (beyond 6 days) with name
"A": the staleness equivalence holds, the projection is flagged and the store
row is queued. -/
theorem get_staleness_requeue_iff_applied :
    ∃ b ∈ (⟨[⟨1, false, 0, false⟩], [(1, "A")], []⟩ : Store).bundles, ∃ nm,
      (b.bundle_id, nm) ∈ (⟨[⟨1, false, 0, false⟩], [(1, "A")], []⟩ : Store).names ∧
      (⟨1, some "A", some false, some [], 0, true⟩ : Projection).bundle_id = b.bundle_id ∧
      (b.queued_for_update = true →
        (⟨1, some "A", some false, some [], 0, true⟩ : Projection).queued_for_update = true) ∧
      (b.queued_for_update = false →
        (((⟨1, some "A", some false, some [], 0, true⟩ : Projection).queued_for_update = true ∧
          ∃ b' ∈ ((getBundles ⟨[⟨1, false, 0, false⟩], [(1, "A")], []⟩ [1] "" 600000).2).bundles,
            b'.bundle_id = b.bundle_id ∧ b'.queued_for_update = true) ↔
         (600000 - b.last_update > 60 * 60 * 24 * 6 ∨
          (nm = "" ∧ b.removed = false ∧ 600000 - b.last_update > 60 * 60 * 24)))) :=
  get_staleness_requeue_iff ⟨[⟨1, false, 0, false⟩], [(1, "A")], []⟩ [1] 600000
    [⟨1, some "A", some false, some [], 0, true⟩] rfl
    ⟨1, some "A", some false, some [], 0, true⟩ (List.mem_singleton.mpr rfl)

/-- C10: when the apps filter is on, every returned projection carries an
`apps` field holding the bundle's app-id list, and a bundle with no rows in
the app-membership table gets `some []` — present and empty, never absent. -/
theorem get_apps_field_present_default_empty (st : Store) (ids : List Int) (fs : String)
    (now : Int) (bs : List Projection) (h : (getBundles st ids fs now).1 = .ok bs)
    (hf : (filtersOf fs).apps = true) (p : Projection) (hp : p ∈ bs) :
    p.apps = some (appsOf st p.bundle_id) ∧
    ((∀ pr ∈ st.apps, pr.1 ≠ p.bundle_id) → p.apps = some []) := by
  have hval : matchesFilterRegex fs = true := by
    by_contra hc
    rw [Bool.not_eq_true] at hc
    simp [getBundles, hc] at h
  rw [getBundles_fst_of_valid st ids fs now hval] at h
  injection h with h2
  subst h2
  obtain ⟨row, hrow, hpeq⟩ := List.mem_map.mp hp
  subst hpeq
  have h1 : (mkProjection (filtersOf fs) st now row).apps =
      some (appsOf st row.bundle_id) := by
    simp [mkProjection, hf]
  refine ⟨h1, ?_⟩
  intro hnone
  have h2 : appsOf st row.bundle_id = [] := by
    unfold appsOf
    have hfil : st.apps.filter (fun pr => pr.1 == row.bundle_id) = [] := by
      rw [List.filter_eq_nil_iff]
      intro a ha
      simp only [beq_iff_eq]
      exact hnone a ha
    rw [hfil]
    rfl
  rw [h1, h2]

/-- C10 (witness): a known bundle with a name row and no app rows, requested
with default filters: its projection's apps field is present and `some []`. -/
theorem get_apps_field_present_default_empty_applied :
    (⟨1, some "A", some false, some [], 0, false⟩ : Projection).apps =
      some (appsOf ⟨[⟨1, false, 0, false⟩], [(1, "A")], []⟩ 1) ∧
    (⟨1, some "A", some false, some [], 0, false⟩ : Projection).apps = some [] :=
  ⟨(get_apps_field_present_default_empty ⟨[⟨1, false, 0, false⟩], [(1, "A")], []⟩ [1] "" 0
      [⟨1, some "A", some false, some [], 0, false⟩] rfl (by decide)
      ⟨1, some "A", some false, some [], 0, false⟩ (List.mem_singleton.mpr rfl)).1,
   (get_apps_field_present_default_empty ⟨[⟨1, false, 0, false⟩], [(1, "A")], []⟩ [1] "" 0
      [⟨1, some "A", some false, some [], 0, false⟩] rfl (by decide)
      ⟨1, some "A", some false, some [], 0, false⟩ (List.mem_singleton.mpr rfl)).2
     (fun pr hpr => absurd hpr (List.not_mem_nil pr))⟩

/-- C4 (amended): two `get` calls that differ only in valid filters both of
which include `name` and `removed` (so they may differ in `apps`) mark the
same identifiers for requeue and perform the same queue write: the resulting
stores are equal and the returned projections agree on id and computed
`queued_for_update`. -/
theorem get_filters_with_name_removed_same_write (st : Store) (ids : List Int)
    (s1 s2 : String) (now : Int)
    (h1 : matchesFilterRegex s1 = true) (h2 : matchesFilterRegex s2 = true)
    (hn1 : (filtersOf s1).name = true) (hr1 : (filtersOf s1).removed = true)
    (hn2 : (filtersOf s2).name = true) (hr2 : (filtersOf s2).removed = true)
    (bs1 bs2 : List Projection)
    (hb1 : (getBundles st ids s1 now).1 = .ok bs1)
    (hb2 : (getBundles st ids s2 now).1 = .ok bs2) :
    (getBundles st ids s1 now).2 = (getBundles st ids s2 now).2 ∧
    (bs1.map fun p => (p.bundle_id, p.queued_for_update)) =
      (bs2.map fun p => (p.bundle_id, p.queued_for_update)) := by
  have hsel : selectRows st ids (filtersOf s1) = selectRows st ids (filtersOf s2) := by
    simp only [selectRows, hn1, hn2, hr1, hr2]
  have hq : queueIds st ids (filtersOf s1) now = queueIds st ids (filtersOf s2) now := by
    unfold queueIds
    rw [hsel]
  constructor
  · rw [getBundles_snd_of_valid st ids s1 now h1, getBundles_snd_of_valid st ids s2 now h2,
      hq]
  · rw [getBundles_fst_of_valid st ids s1 now h1] at hb1
    rw [getBundles_fst_of_valid st ids s2 now h2] at hb2
    injection hb1 with e1
    injection hb2 with e2
    subst e1
    subst e2
    rw [List.map_map, List.map_map, hsel]
    rfl

/-- C4 (witness): filters "name,removed" versus "" (all) on a store whose
record is 200000 seconds old: the final stores coincide. -/
theorem get_filters_with_name_removed_same_write_applied :
    (getBundles ⟨[⟨1, false, 0, false⟩], [(1, "A")], [(1, 9)]⟩ [1] "name,removed" 200000).2 =
      (getBundles ⟨[⟨1, false, 0, false⟩], [(1, "A")], [(1, 9)]⟩ [1] "" 200000).2 :=
  (get_filters_with_name_removed_same_write ⟨[⟨1, false, 0, false⟩], [(1, "A")], [(1, 9)]⟩
    [1] "name,removed" "" 200000 (by decide) (by decide) (by decide) (by decide)
    (by decide) (by decide)
    [⟨1, some "A", some false, none, 0, false⟩]
    [⟨1, some "A", some false, some [9], 0, false⟩] rfl rfl).1

theorem countP_map_projId {β : Type} (g : β → Projection) (key : β → Int)
    (hkey : ∀ x, (g x).bundle_id = key x) (l : List β) (i : Int) :
    ((l.map g).countP fun p => p.bundle_id == i) = l.countP fun x => key x == i := by
  rw [List.countP_map]
  congr 1
  funext x
  simp [Function.comp, hkey x]

/-- C3 (amended): with duplicate-free primary and name keys, `get` returns
exactly one projection for every requested identifier that appears in the
read query — i.e. that has a primary row AND, when the name filter is
included, a name row — and zero for the others; every requested identifier
not in that sense known ends up with `queued_for_update = true` in the store
after the queue write. -/
theorem get_result_membership_and_queueing (st : Store) (ids : List Int) (fs : String)
    (now : Int)
    (hb : (st.bundles.map fun b => b.bundle_id).Nodup)
    (hn : (st.names.map fun n => n.1).Nodup)
    (bs : List Projection) (h : (getBundles st ids fs now).1 = .ok bs)
    (i : Int) (hi : i ∈ ids) :
    (bs.countP fun p => p.bundle_id == i) =
      (if (st.bundles.any fun b => b.bundle_id == i) &&
          (!(filtersOf fs).name || (st.names.any fun n => n.1 == i)) then 1 else 0) ∧
    (((st.bundles.any fun b => b.bundle_id == i) &&
          (!(filtersOf fs).name || (st.names.any fun n => n.1 == i))) = false →
      ∃ b' ∈ ((getBundles st ids fs now).2).bundles,
        b'.bundle_id = i ∧ b'.queued_for_update = true) := by
  have hval : matchesFilterRegex fs = true := by
    by_contra hc
    rw [Bool.not_eq_true] at hc
    simp [getBundles, hc] at h
  rw [getBundles_fst_of_valid st ids fs now hval] at h
  injection h with h2
  subst h2
  have hcount : (((selectRows st ids (filtersOf fs)).map
        (mkProjection (filtersOf fs) st now)).countP fun p => p.bundle_id == i) =
      if (st.bundles.any fun b => b.bundle_id == i) &&
         (!(filtersOf fs).name || (st.names.any fun n => n.1 == i)) then 1 else 0 := by
    rw [countP_map_projId (mkProjection (filtersOf fs) st now)
      (fun r => r.bundle_id) (fun r => rfl)]
    exact countP_selectRows st ids (filtersOf fs) hb hn i hi
  refine ⟨hcount, ?_⟩
  intro hknown
  have h0 : ((selectRows st ids (filtersOf fs)).countP fun r => r.bundle_id == i) = 0 := by
    have hc2 := hcount
    rw [countP_map_projId (mkProjection (filtersOf fs) st now)
      (fun r => r.bundle_id) (fun r => rfl), hknown] at hc2
    simpa using hc2
  have hnone : ∀ r ∈ selectRows st ids (filtersOf fs), ¬(r.bundle_id == i) = true :=
    List.countP_eq_zero.mp h0
  have hnc : ((((selectRows st ids (filtersOf fs)).map fun row => row.bundle_id).contains i))
      = false := by
    by_contra hcc
    rw [Bool.not_eq_false] at hcc
    obtain ⟨r, hr, hre⟩ := List.mem_map.mp ((contains_int_iff _ _).mp hcc)
    exact hnone r hr (beq_iff_eq.mpr hre)
  have hmemq : i ∈ queueIds st ids (filtersOf fs) now := by
    unfold queueIds
    apply List.mem_append_right
    apply List.mem_filter.mpr
    refine ⟨hi, ?_⟩
    rw [hnc]
    rfl
  rw [getBundles_snd_of_valid st ids fs now hval]
  have hqne : ¬((queueIds st ids (filtersOf fs) now).isEmpty = true) := by
    intro hqe
    rw [List.isEmpty_iff] at hqe
    rw [hqe] at hmemq
    cases hmemq
  rw [if_neg hqne]
  exact foldl_upsertQueue_queued _ st.bundles i hmemq

/-- C3 (witness): identifier 2 is unknown to a one-row store; after `get` it
is present with `queued_for_update = true`. -/
theorem get_result_membership_and_queueing_applied :
    ∃ b' ∈ ((getBundles ⟨[⟨1, false, 0, false⟩], [(1, "A")], []⟩ [1, 2] "" 0).2).bundles,
      b'.bundle_id = 2 ∧ b'.queued_for_update = true :=
  (get_result_membership_and_queueing ⟨[⟨1, false, 0, false⟩], [(1, "A")], []⟩ [1, 2] "" 0
    (by decide) (by decide)
    [⟨1, some "A", some false, some [], 0, false⟩] rfl 2 (by decide)).2 (by decide)

/-- C4 (counterexample): two `get` calls on the same store and ids differing
only in valid filters produce different queue writes: with all fields
included the fresh-enough named record is not requeued, while with filters
`"apps"` the unselected name and removed columns read as absent/falsy and the
same record (age 200000 s, beyond 1 day) is marked and written queued. -/
theorem get_filters_change_requeue_cex :
    matchesFilterRegex "apps" = true ∧
    (getBundles ⟨[⟨1, false, 0, false⟩], [(1, "A")], []⟩ [1] "" 200000).2 =
      ⟨[⟨1, false, 0, false⟩], [(1, "A")], []⟩ ∧
    (getBundles ⟨[⟨1, false, 0, false⟩], [(1, "A")], []⟩ [1] "apps" 200000).2 =
      ⟨[⟨1, false, 0, true⟩], [(1, "A")], []⟩ :=
  ⟨by decide, rfl, rfl⟩
